import Mathlib

/-!
Shallow embedding of the annotation-session core of `galaxy_stream_app.py`:
label store, session cursor, classification handlers with auto-save and
lock/edit semantics, resume-on-load rule, corrupt-store recovery and the
summary-statistics derivation.  The streamlit session state is an explicit
`SessionState` record; each button handler is a function from state to
state (plus flags for the effects it performs).  The result of the filesystem
write (`save_results` returning True or False) is passed in as a boolean
parameter `saveOk`, since the handlers receive it as a return value.
-/

namespace GalaxyStream

/-- The three classification strings used by the app. -/
inductive Classification where
  | has_stream
  | no_stream
  | skipped
deriving DecidableEq, Repr

/-- A label record as built by the classify handlers:
`{url, classification, index, timestamp, metadata}` plus `edited`, which in
the python dict is present (set to True) exactly when the position was
already labeled; absence is modelled as `false`. -/
structure LabelRecord where
  url : String
  classification : Classification
  index : Int
  timestamp : String
  metadata : List (String × String)
  edited : Bool
deriving DecidableEq, Repr

/-- The label store `st.session_state.results`: a python dict from int
position to record, modelled as an association list built only through
`upsert` (which keeps keys unique, like a dict). -/
abbrev Store := List (Int × LabelRecord)

/-- Dict lookup: `results[p]` when present, i.e. the test `p in results`. -/
def lookupPos : Store → Int → Option LabelRecord
  | [], _ => none
  | (k, v) :: rest, p => if p = k then some v else lookupPos rest p

/-- Dict assignment `results[p] = r`: replace in place when the key exists,
append otherwise (python dict insertion-order semantics). -/
def upsert : Store → Int → LabelRecord → Store
  | [], p, r => [(p, r)]
  | (k, v) :: rest, p, r =>
      if p = k then (p, r) :: rest else (k, v) :: upsert rest p r

/-- The mutable session state the handlers read and write
(`st.session_state.*`). -/
structure SessionState where
  current_index : Int
  results : Store
  labels_since_save : Nat
  auto_save_interval : Nat
  edit_mode : Bool
  is_inverted : Bool
deriving DecidableEq, Repr

/-- Data the classify handlers take from the current catalog row and clock:
`url = current_row['image_url']`, the timestamp string, and
`current_row.to_dict()` as the metadata snapshot. -/
structure RowEnv where
  url : String
  timestamp : String
  metadata : List (String × String)
deriving DecidableEq, Repr

/-- Outcome of one classify-button press: the next session state, whether the
operation was refused (no button offered: completion screen, or labeled item
without edit mode), whether `save_results` was invoked, and the boolean that
call returned (meaningful only when `flushAttempted`). -/
structure ClassifyResult where
  state : SessionState
  refused : Bool
  flushAttempted : Bool
  flushOk : Bool
deriving DecidableEq, Repr

/-- One classification-button handler (`has_stream_btn` / `no_stream_btn` /
`skip_btn`; the three share one shape, parameterised by the classification).
`n` is `len(df)`.  The page shows the completion screen when
`idx >= len(df)`, so no button exists there; the buttons are also not
rendered when the item is labeled and edit mode is off (the locked-label
display branch).  Otherwise the handler builds the record (with
`edited = True` when overwriting), upserts it, and either saves immediately
(edit of a labeled item) or runs the auto-save counter logic.  The return
value of `save_results` (`saveOk`) only selects the message shown; the
state update is the same either way. -/
def classify (n : Nat) (env : RowEnv) (c : Classification) (saveOk : Bool)
    (s : SessionState) : ClassifyResult :=
  let idx := s.current_index
  if (n : Int) ≤ idx then
    ⟨s, true, false, false⟩
  else
    let is_labeled := (lookupPos s.results idx).isSome
    if is_labeled ∧ ¬ s.edit_mode then
      ⟨s, true, false, false⟩
    else
      let result : LabelRecord :=
        ⟨env.url, c, idx, env.timestamp, env.metadata, is_labeled⟩
      let results1 := upsert s.results idx result
      if is_labeled ∧ s.edit_mode then
        ⟨{ s with results := results1 }, false, true, saveOk⟩
      else
        let count := s.labels_since_save + 1
        if s.auto_save_interval ≤ count then
          ⟨{ s with results := results1, labels_since_save := 0 },
            false, true, saveOk⟩
        else
          ⟨{ s with results := results1, labels_since_save := count },
            false, false, false⟩

/-- The `next_btn` handler.  The button exists only on the annotation screen
(`idx < len(df)`) and is disabled when `idx >= len(df) - 1` or the current
item is unlabeled; when pressed it sets
`current_index = min(len(df) - 1, idx + 1)` and clears the invert flag. -/
def nextBtn (n : Nat) (s : SessionState) : SessionState :=
  let idx := s.current_index
  if (n : Int) ≤ idx then s
  else
    let is_labeled := (lookupPos s.results idx).isSome
    let next_disabled := ((n : Int) - 1 ≤ idx) ∨ ¬ is_labeled
    if next_disabled then s
    else { s with current_index := min ((n : Int) - 1) (idx + 1),
                  is_inverted := false }

/-- The `prev_btn` handler: disabled at `idx == 0`, otherwise
`current_index = max(0, idx - 1)` and the invert flag is cleared. -/
def prevBtn (n : Nat) (s : SessionState) : SessionState :=
  let idx := s.current_index
  if (n : Int) ≤ idx then s
  else if idx = 0 then s
  else { s with current_index := max 0 (idx - 1), is_inverted := false }

/-- The resume scan (`for i in range(total): if i not in results: ... break`):
first position in `i, i+1, ..., i+k-1` with no record. -/
def scanFirstUnlabeled (m : Store) : Nat → Nat → Option Nat
  | _, 0 => none
  | i, k + 1 =>
      if lookupPos m (i : Int) = none then some i
      else scanFirstUnlabeled m (i + 1) k

/-- Cursor position chosen on load of an existing store: the first unlabeled
position, or `total_galaxies - 1` when every position is labeled (the
`for ... else` branch). -/
def resumeIndex (n : Nat) (m : Store) : Int :=
  match scanFirstUnlabeled m 0 n with
  | some i => (i : Int)
  | none => (n : Int) - 1

/-- Content of an uploaded label file after `json.loads`: either the parse
raised (malformed JSON) or it produced an object, a list of string keys with
record values. -/
inductive RawUpload where
  | malformed
  | object (entries : List (String × LabelRecord))
deriving Repr

/-- Value of a decimal digit character, `none` otherwise. -/
def charDigit (c : Char) : Option Nat :=
  if '0' ≤ c ∧ c ≤ '9' then some (c.toNat - 48) else none

/-- Reads a run of decimal digits into an accumulator; `none` as soon as a
non-digit appears or if called on an empty run with nothing read (the
callers pass the whole key, so an empty list yields the accumulator only
when the caller has checked non-emptiness). -/
def readDigits : List Char → Nat → Option Nat
  | [], acc => some acc
  | c :: cs, acc =>
      match charDigit c with
      | none => none
      | some d => readDigits cs (acc * 10 + d)

/-- Python `int(k)` applied to a persisted key: an optional minus sign
followed by decimal digits (the persisted keys are decimal string positions;
the whitespace and plus-sign tolerance of `int` is not exercised by them).
A failure models the `ValueError` that the surrounding except catches. -/
def intOfKey (s : String) : Option Int :=
  match s.data with
  | [] => none
  | '-' :: [] => none
  | '-' :: c :: cs => (readDigits (c :: cs) 0).map (fun v => -(v : Int))
  | cs => (readDigits cs 0).map (fun v => (v : Int))

/-- The dict comprehension `{int(k): v for k, v in data.items()}` over the
parsed object; a key that fails to parse raises, giving `none` (caught by
the surrounding except). -/
def parseEntries (entries : List (String × LabelRecord)) : Option Store :=
  entries.foldlM (fun m e => (intOfKey e.1).map (fun p => upsert m p e.2)) []

/-- The `load_existing_labels` helper: absent file gives an empty mapping
silently; any exception while reading or converting keys is caught, a
warning is shown, and the empty mapping is returned.  Result: the store and
whether a warning was issued. -/
def load_existing_labels (raw : Option RawUpload) : Store × Bool :=
  match raw with
  | none => ([], false)
  | some RawUpload.malformed => ([], true)
  | some (RawUpload.object entries) =>
      match parseEntries entries with
      | none => ([], true)
      | some m => (m, false)

/-- The sidebar handler for an uploaded existing label file: on success it
replaces `results`, resets `labels_since_save` to 0 and jumps the cursor per
the resume rule; on any exception (malformed JSON or a bad key) it reports
an error and leaves the state unchanged.  `n` is `len(galaxy_data)`.
Result: the next state and whether the load succeeded.  No range check is
performed on the parsed keys. -/
def loadExistingHandler (n : Nat) (raw : RawUpload) (s : SessionState) :
    SessionState × Bool :=
  match raw with
  | RawUpload.malformed => (s, false)
  | RawUpload.object entries =>
      match parseEntries entries with
      | none => (s, false)
      | some m =>
          ({ s with results := m, labels_since_save := 0,
                    current_index := resumeIndex n m }, true)

/-- The summary record returned by `get_summary_stats`. -/
structure SummaryStats where
  total : Nat
  classified : Nat
  unclassified : Int
  has_stream : Nat
  no_stream : Nat
  skipped : Nat
deriving DecidableEq, Repr

/-- `get_summary_stats`: pure derivation over the catalog length and the
store.  `unclassified = total - classified` is python int subtraction, so it
is an `Int` here. -/
def get_summary_stats (n : Nat) (results : Store) : SummaryStats :=
  { total := n
    classified := results.length
    unclassified := (n : Int) - (results.length : Int)
    has_stream :=
      results.countP (fun e => decide (e.2.classification = Classification.has_stream))
    no_stream :=
      results.countP (fun e => decide (e.2.classification = Classification.no_stream))
    skipped :=
      results.countP (fun e => decide (e.2.classification = Classification.skipped)) }

/-- A session driver for the auto-save policy: visit the listed positions in
order (navigation modelled as setting the cursor) and press the same
classification button at each; returns the final state and how many
`save_results` calls were attempted along the way. -/
def runClassifications (n : Nat) (env : RowEnv) (c : Classification)
    (saveOk : Bool) : List Int → SessionState → SessionState × Nat
  | [], s => (s, 0)
  | p :: ps, s =>
      let r := classify n env c saveOk { s with current_index := p }
      let rest := runClassifications n env c saveOk ps r.state
      (rest.1, (if r.flushAttempted then 1 else 0) + rest.2)

/-- The invariant claimed for the store: every key lies in the catalog
range. -/
def storeInRange (n : Nat) (m : Store) : Prop :=
  ∀ e ∈ m, 0 ≤ e.1 ∧ e.1 < (n : Int)

instance (n : Nat) (m : Store) : Decidable (storeInRange n m) :=
  List.decidableBAll _ m

/-! Helper lemmas about the store and the resume scan. -/

theorem lookupPos_upsert (m : Store) (p : Int) (r : LabelRecord) (q : Int) :
    lookupPos (upsert m p r) q = if q = p then some r else lookupPos m q := by
  induction m with
  | nil => simp [upsert, lookupPos]
  | cons e rest ih =>
      obtain ⟨k, v⟩ := e
      by_cases hpk : p = k
      · subst hpk
        simp only [upsert, if_pos rfl, lookupPos]
        by_cases hq : q = p <;> simp [hq]
      · simp only [upsert, if_neg hpk, lookupPos]
        by_cases hqk : q = k
        · subst hqk
          simp [lookupPos, Ne.symm hpk]
        · simp [lookupPos, hqk, ih]

theorem mem_upsert (m : Store) (p : Int) (r : LabelRecord) (e : Int × LabelRecord) :
    e ∈ upsert m p r → e = (p, r) ∨ e ∈ m := by
  induction m with
  | nil => intro h; simpa [upsert] using h
  | cons f rest ih =>
      obtain ⟨k, v⟩ := f
      intro h
      by_cases hpk : p = k
      · subst hpk
        simp only [upsert, eq_self_iff_true, if_true, List.mem_cons] at h
        rcases h with h | h
        · exact Or.inl h
        · exact Or.inr (List.mem_cons_of_mem _ h)
      · simp only [upsert, if_neg hpk, List.mem_cons] at h
        rcases h with h | h
        · exact Or.inr (h ▸ List.mem_cons_self _ _)
        · rcases ih h with h' | h'
          · exact Or.inl h'
          · exact Or.inr (List.mem_cons_of_mem _ h')

theorem scanFirstUnlabeled_lt (m : Store) :
    ∀ (k i t : Nat), scanFirstUnlabeled m i k = some t → t < i + k := by
  intro k
  induction k with
  | zero => intro i t h; simp [scanFirstUnlabeled] at h
  | succ k ih =>
      intro i t h
      simp only [scanFirstUnlabeled] at h
      by_cases hu : lookupPos m (i : Int) = none
      · rw [if_pos hu] at h
        injection h with h'
        omega
      · rw [if_neg hu] at h
        have := ih (i + 1) t h
        omega

theorem scanFirstUnlabeled_finds (m : Store) :
    ∀ (k i t : Nat), i ≤ t → t < i + k → lookupPos m (t : Int) = none →
      (∀ j : Nat, i ≤ j → j < t → lookupPos m (j : Int) ≠ none) →
      scanFirstUnlabeled m i k = some t := by
  intro k
  induction k with
  | zero => intro i t h1 h2 _ _; omega
  | succ k ih =>
      intro i t h1 h2 ht hprev
      simp only [scanFirstUnlabeled]
      by_cases hi : lookupPos m (i : Int) = none
      · rw [if_pos hi]
        have : i = t := by
          by_contra hne
          exact hprev i le_rfl (lt_of_le_of_ne h1 hne) hi
        rw [this]
      · rw [if_neg hi]
        have hit : i ≠ t := fun h => hi (h ▸ ht)
        exact ih (i + 1) t (by omega) (by omega) ht
          (fun j hj1 hj2 => hprev j (by omega) hj2)

theorem scanFirstUnlabeled_none (m : Store) :
    ∀ (k i : Nat), (∀ j : Nat, i ≤ j → j < i + k → lookupPos m (j : Int) ≠ none) →
      scanFirstUnlabeled m i k = none := by
  intro k
  induction k with
  | zero => intro i _; simp [scanFirstUnlabeled]
  | succ k ih =>
      intro i hall
      simp only [scanFirstUnlabeled]
      rw [if_neg (hall i le_rfl (by omega))]
      exact ih (i + 1) (fun j hj1 hj2 => hall j (by omega) (by omega))

theorem resumeIndex_lt (n : Nat) (m : Store) : resumeIndex n m < (n : Int) := by
  unfold resumeIndex
  cases hscan : scanFirstUnlabeled m 0 n with
  | none =>
      show (n : Int) - 1 < (n : Int)
      omega
  | some i =>
      have := scanFirstUnlabeled_lt m n 0 i hscan
      show (i : Int) < (n : Int)
      omega

/-! Evaluation lemmas: one per branch of the classify handler. -/

theorem classify_eval_complete (n : Nat) (env : RowEnv) (c : Classification)
    (ok : Bool) (s : SessionState) (hidx : (n : Int) ≤ s.current_index) :
    classify n env c ok s = ⟨s, true, false, false⟩ := by
  simp [classify, hidx]

theorem classify_eval_locked (n : Nat) (env : RowEnv) (c : Classification)
    (ok : Bool) (s : SessionState) (r : LabelRecord)
    (hidx : s.current_index < (n : Int))
    (hl : lookupPos s.results s.current_index = some r)
    (he : s.edit_mode = false) :
    classify n env c ok s = ⟨s, true, false, false⟩ := by
  simp [classify, not_le.mpr hidx, hl, he]

theorem classify_eval_edit (n : Nat) (env : RowEnv) (c : Classification)
    (ok : Bool) (s : SessionState) (r : LabelRecord)
    (hidx : s.current_index < (n : Int))
    (hl : lookupPos s.results s.current_index = some r)
    (he : s.edit_mode = true) :
    classify n env c ok s =
      ⟨{ s with results := (upsert s.results s.current_index
            ⟨env.url, c, s.current_index, env.timestamp, env.metadata, true⟩) },
        false, true, ok⟩ := by
  simp [classify, not_le.mpr hidx, hl, he]

theorem classify_eval_fresh_trigger (n : Nat) (env : RowEnv) (c : Classification)
    (ok : Bool) (s : SessionState)
    (hidx : s.current_index < (n : Int))
    (hfresh : lookupPos s.results s.current_index = none)
    (htrig : s.auto_save_interval ≤ s.labels_since_save + 1) :
    classify n env c ok s =
      ⟨{ s with results := upsert s.results s.current_index ⟨env.url, c, s.current_index, env.timestamp, env.metadata, false⟩, labels_since_save := 0 },
        false, true, ok⟩ := by
  simp [classify, not_le.mpr hidx, hfresh, htrig]

theorem classify_eval_fresh_pending (n : Nat) (env : RowEnv) (c : Classification)
    (ok : Bool) (s : SessionState)
    (hidx : s.current_index < (n : Int))
    (hfresh : lookupPos s.results s.current_index = none)
    (hpend : ¬ s.auto_save_interval ≤ s.labels_since_save + 1) :
    classify n env c ok s =
      ⟨{ s with results := upsert s.results s.current_index ⟨env.url, c, s.current_index, env.timestamp, env.metadata, false⟩, labels_since_save := s.labels_since_save + 1 },
        false, false, false⟩ := by
  simp [classify, not_le.mpr hidx, hfresh, hpend]

/-- The classify handler never moves the cursor, never changes the auto-save
interval and never toggles edit mode: classification and navigation are
decoupled. -/
theorem classify_preserves_frame (n : Nat) (env : RowEnv) (c : Classification)
    (ok : Bool) (s : SessionState) :
    (classify n env c ok s).state.current_index = s.current_index ∧
    (classify n env c ok s).state.auto_save_interval = s.auto_save_interval ∧
    (classify n env c ok s).state.edit_mode = s.edit_mode := by
  simp only [classify]
  split_ifs <;> exact ⟨rfl, rfl, rfl⟩

/-! Concrete fixtures used by witnesses and counterexamples. -/

/-- A sample stored record. -/
def recA : LabelRecord :=
  { url := "u", classification := Classification.has_stream, index := 0,
    timestamp := "t", metadata := [], edited := false }

/-- A sample catalog row environment. -/
def envA : RowEnv := { url := "u", timestamp := "t", metadata := [] }

/-- The session state right after starting a fresh session. -/
def initState : SessionState :=
  { current_index := 0, results := [], labels_since_save := 0,
    auto_save_interval := 5, edit_mode := false, is_inverted := false }

/-- A session on the last position of a 5-item catalog, that position
labeled, edit mode off. -/
def sLast : SessionState :=
  { current_index := 4, results := [(4, recA)], labels_since_save := 0,
    auto_save_interval := 5, edit_mode := false, is_inverted := false }

/-- A session with position 0 labeled and edit mode off. -/
def sLocked : SessionState :=
  { current_index := 0, results := [(0, recA)], labels_since_save := 2,
    auto_save_interval := 5, edit_mode := false, is_inverted := false }

/-- A session with position 0 labeled and edit mode on, with a nonzero
pending auto-save counter. -/
def sEdit : SessionState :=
  { current_index := 0, results := [(0, recA)], labels_since_save := 3,
    auto_save_interval := 5, edit_mode := true, is_inverted := false }

/-! Claim C1. -/

/-- C1 fails on the code: with a catalog of length 5, the cursor on the last
position 4 and that position labeled, the claim says `next()` is permitted
and moves the cursor to 5 (the COMPLETE state); the handler's disable
condition `idx >= len(df) - 1` refuses it, the state is unchanged and the
cursor stays at 4, never reaching 5. -/
theorem next_at_last_labeled_refused_cex :
    (lookupPos sLast.results sLast.current_index).isSome = true ∧
    sLast.current_index = (5 : Int) - 1 ∧
    nextBtn 5 sLast = sLast ∧
    (nextBtn 5 sLast).current_index ≠ 5 := by decide

/-- C1 (amended): `next()` on the last catalog position is refused even when
that position is labeled, and the COMPLETE state (`cursor = length`) is
never entered by any transition: from any state with `0 ≤ cursor < length`,
`next`, `prev` and `classify` keep `cursor < length`, and the resume rule
also always lands strictly below the length. -/
theorem complete_unreachable_from_browsing (n : Nat) (s : SessionState)
    (h0 : 0 ≤ s.current_index) (h1 : s.current_index < (n : Int)) :
    (nextBtn n s).current_index < (n : Int) ∧
    (prevBtn n s).current_index < (n : Int) ∧
    (∀ env c ok, (classify n env c ok s).state.current_index < (n : Int)) ∧
    (∀ m : Store, resumeIndex n m < (n : Int)) := by
  refine ⟨?_, ?_, fun env c ok => ?_, fun m => resumeIndex_lt n m⟩
  · simp only [nextBtn]
    split_ifs
    · exact h1
    · exact h1
    · show min ((n : Int) - 1) (s.current_index + 1) < (n : Int)
      omega
  · simp only [prevBtn]
    split_ifs
    · exact h1
    · exact h1
    · show max 0 (s.current_index - 1) < (n : Int)
      omega
  · simp only [classify]
    split_ifs <;> exact h1

/-- Witness for the amended C1 at a concrete state. -/
theorem complete_unreachable_from_browsing_witness :
    (nextBtn 5 sLast).current_index < (5 : Int) ∧
    resumeIndex 5 [] < (5 : Int) := by
  have h := complete_unreachable_from_browsing 5 sLast (by decide) (by decide)
  exact ⟨h.1, h.2.2.2 []⟩

/-! Claim C3. -/

/-- C3: an already-labeled position with edit mode off is locked — the
classify operation is refused (the buttons are not offered), the session
state is unchanged, no save is attempted, and any number of repeated
attempts leaves the state fixed. -/
theorem locked_classify_noop (n : Nat) (env : RowEnv) (c : Classification)
    (ok : Bool) (s : SessionState) (r : LabelRecord)
    (hl : lookupPos s.results s.current_index = some r)
    (he : s.edit_mode = false) (k : Nat) :
    (classify n env c ok s).state = s ∧
    (classify n env c ok s).refused = true ∧
    (classify n env c ok s).flushAttempted = false ∧
    (fun t => (classify n env c ok t).state)^[k] s = s := by
  have hstep : classify n env c ok s = ⟨s, true, false, false⟩ := by
    by_cases hn : (n : Int) ≤ s.current_index
    · exact classify_eval_complete n env c ok s hn
    · exact classify_eval_locked n env c ok s r (not_le.mp hn) hl he
  refine ⟨by rw [hstep], by rw [hstep], by rw [hstep], ?_⟩
  have hfix : (classify n env c ok s).state = s := by rw [hstep]
  exact Function.iterate_fixed hfix k

/-- Witness for C3 at a concrete locked state, with three repeated
attempts. -/
theorem locked_classify_noop_witness :
    (classify 4 envA Classification.no_stream true sLocked).state = sLocked ∧
    (fun t => (classify 4 envA Classification.no_stream true t).state)^[3] sLocked = sLocked := by
  have h := locked_classify_noop 4 envA Classification.no_stream true sLocked
    recA (by decide) (by decide) 3
  exact ⟨h.1, h.2.2.2⟩

/-! Claim C4. -/

/-- C4: classifying an already-labeled position with edit mode on overwrites
the stored record with `edited = true` and attempts a save immediately,
whatever the value of the auto-save counter; the counter itself is left
untouched (the edit path bypasses the threshold logic entirely). -/
theorem edit_classify_immediate_flush (n : Nat) (env : RowEnv)
    (c : Classification) (ok : Bool) (s : SessionState) (r : LabelRecord)
    (hidx : s.current_index < (n : Int))
    (hl : lookupPos s.results s.current_index = some r)
    (he : s.edit_mode = true) :
    (classify n env c ok s).flushAttempted = true ∧
    (classify n env c ok s).refused = false ∧
    lookupPos (classify n env c ok s).state.results s.current_index = some ⟨env.url, c, s.current_index, env.timestamp, env.metadata, true⟩ ∧
    (classify n env c ok s).state.labels_since_save = s.labels_since_save := by
  rw [classify_eval_edit n env c ok s r hidx hl he]
  refine ⟨rfl, rfl, ?_, rfl⟩
  rw [show (⟨{ s with results := (upsert s.results s.current_index ⟨env.url, c, s.current_index, env.timestamp, env.metadata, true⟩) }, false, true, ok⟩ : ClassifyResult).state.results = upsert s.results s.current_index ⟨env.url, c, s.current_index, env.timestamp, env.metadata, true⟩ from rfl]
  rw [lookupPos_upsert]
  simp

/-- Witness for C4 at a concrete labeled state with a pending counter of 3
(below the threshold 5): the edit still saves at once and the counter stays
3. -/
theorem edit_classify_immediate_flush_witness :
    (classify 4 envA Classification.no_stream true sEdit).flushAttempted = true ∧
    (classify 4 envA Classification.no_stream true sEdit).state.labels_since_save = 3 := by
  have h := edit_classify_immediate_flush 4 envA Classification.no_stream true
    sEdit recA (by decide) (by decide) (by decide)
  exact ⟨h.1, h.2.2.2.trans rfl⟩

/-! Claim C7. -/

/-- C7: when the current item has no label record, the next button is
disabled, so `next()` leaves the entire session state unchanged: the cursor
does not move and no record is created. -/
theorem unlabeled_next_noop (n : Nat) (s : SessionState)
    (h : lookupPos s.results s.current_index = none) :
    nextBtn n s = s := by
  simp [nextBtn, h]

/-- Witness for C7: a fresh session cannot advance from the unlabeled first
item. -/
theorem unlabeled_next_noop_witness : nextBtn 3 initState = initState :=
  unlabeled_next_noop 3 initState (by decide)

/-! Claim C2. -/

/-- A session with 4 pending labels at threshold 5, about to classify the
unlabeled position 0. -/
def sPend : SessionState :=
  { current_index := 0, results := [], labels_since_save := 4,
    auto_save_interval := 5, edit_mode := false, is_inverted := false }

/-- C2 fails on the code: at a state with 4 pending labels and threshold 5,
the fifth new classification triggers the auto-save; with the write failing
(`saveOk = false`) the claim says the counter is not reset, but the handler
ignores the return value of `save_results` and resets `labels_since_save`
to 0 unconditionally. -/
theorem autosave_failure_resets_counter_cex :
    (classify 9 envA Classification.has_stream false sPend).flushAttempted = true ∧
    (classify 9 envA Classification.has_stream false sPend).flushOk = false ∧
    (classify 9 envA Classification.has_stream false sPend).state.labels_since_save = 0 := by
  decide

/-- C2 (amended): when a new-label classification triggers the auto-save and
the write fails, the in-memory store still holds the new record (the upsert
is not rolled back), but the counter IS reset to 0 — the failed batch does
not count toward the next trigger; indeed the resulting state is identical
to the one after a successful write, because the handler ignores the value
`save_results` returns. -/
theorem autosave_flush_failure (n : Nat) (env : RowEnv) (c : Classification)
    (s : SessionState)
    (hidx : s.current_index < (n : Int))
    (hfresh : lookupPos s.results s.current_index = none)
    (htrig : s.auto_save_interval ≤ s.labels_since_save + 1) :
    (classify n env c false s).flushAttempted = true ∧
    (classify n env c false s).flushOk = false ∧
    lookupPos (classify n env c false s).state.results s.current_index = some ⟨env.url, c, s.current_index, env.timestamp, env.metadata, false⟩ ∧
    (classify n env c false s).state.labels_since_save = 0 ∧
    (classify n env c false s).state = (classify n env c true s).state := by
  rw [classify_eval_fresh_trigger n env c false s hidx hfresh htrig,
      classify_eval_fresh_trigger n env c true s hidx hfresh htrig]
  refine ⟨rfl, rfl, ?_, rfl, rfl⟩
  simp [lookupPos_upsert]

/-- Witness for the amended C2 at the concrete triggering state. -/
theorem autosave_flush_failure_witness :
    (classify 9 envA Classification.no_stream false sPend).flushAttempted = true ∧
    (classify 9 envA Classification.no_stream false sPend).state.labels_since_save = 0 := by
  have h := autosave_flush_failure 9 envA Classification.no_stream sPend
    (by decide) (by decide) (by decide)
  exact ⟨h.1, h.2.2.2.1⟩

/-! Claim C9. -/

/-- C9: `load_existing_labels` never propagates a failure: malformed JSON,
or an object with a key `int()` cannot parse, is caught, a warning is
issued, and the empty mapping is returned — the session continues with zero
labels. -/
theorem corrupt_store_load_warns_empty :
    load_existing_labels (some RawUpload.malformed) = ([], true) ∧
    ∀ entries, parseEntries entries = none →
      load_existing_labels (some (RawUpload.object entries)) = ([], true) := by
  refine ⟨rfl, fun entries hp => ?_⟩
  simp [load_existing_labels, hp]

/-- Witness for C9: an object with a non-numeric key is treated as corrupt
and recovered as the empty store plus a warning. -/
theorem corrupt_store_load_warns_empty_witness :
    load_existing_labels (some (RawUpload.object [("abc", recA)])) = ([], true) :=
  corrupt_store_load_warns_empty.2 [("abc", recA)] (by decide)

/-! Claim C10. -/

/-- A store of three records, one of them beyond a catalog of length 2. -/
def storeOverflow : Store := [(0, recA), (1, recA), (5, recA)]

/-- C10: `get_summary_stats` always reports `classified` as the number of
stored records and `unclassified = total - classified` as a plain integer
difference; with records at positions outside the catalog range the
difference goes negative — a store of 3 records over a catalog of length 2
reports `unclassified = -1`. -/
theorem summary_stats_unclassified :
    (∀ (n : Nat) (m : Store),
        (get_summary_stats n m).classified = m.length ∧
        (get_summary_stats n m).unclassified = (n : Int) - (m.length : Int)) ∧
    (get_summary_stats 2 storeOverflow).unclassified = -1 := by
  exact ⟨fun n m => ⟨rfl, rfl⟩, by decide⟩

/-! Claim C6. -/

/-- C6: loading an existing store over a catalog of length `n` places the
cursor at the first position in `0..n-1` without a record, and at `n - 1`
when every position in range has one; the cursor never lands at `n`. -/
theorem resume_rule (n : Nat) (m : Store) (s : SessionState)
    (entries : List (String × LabelRecord))
    (hp : parseEntries entries = some m) :
    (loadExistingHandler n (RawUpload.object entries) s).1.current_index = resumeIndex n m ∧
    (∀ i : Nat, i < n → lookupPos m (i : Int) = none →
        (∀ j : Nat, j < i → lookupPos m (j : Int) ≠ none) →
        resumeIndex n m = (i : Int)) ∧
    ((∀ j : Nat, j < n → lookupPos m (j : Int) ≠ none) →
        resumeIndex n m = (n : Int) - 1) ∧
    resumeIndex n m < (n : Int) := by
  refine ⟨?_, ?_, ?_, resumeIndex_lt n m⟩
  · simp [loadExistingHandler, hp]
  · intro i hi hnone hprev
    unfold resumeIndex
    rw [scanFirstUnlabeled_finds m n 0 i (Nat.zero_le i) (by omega) hnone
      (fun j hj1 hj2 => hprev j hj2)]
  · intro hall
    unfold resumeIndex
    rw [scanFirstUnlabeled_none m n 0 (fun j hj1 hj2 => hall j (by omega))]

/-- Label file with positions 0, 1 and 3 of a 5-item catalog. -/
def entriesPartial : List (String × LabelRecord) :=
  [("0", recA), ("1", recA), ("3", recA)]

/-- The parsed store for `entriesPartial`. -/
def mPartial : Store := [(0, recA), (1, recA), (3, recA)]

/-- Label file covering all five positions of a 5-item catalog. -/
def entriesFull : List (String × LabelRecord) :=
  [("0", recA), ("1", recA), ("2", recA), ("3", recA), ("4", recA)]

/-- The parsed store for `entriesFull`. -/
def mFull : Store := [(0, recA), (1, recA), (2, recA), (3, recA), (4, recA)]

/-- Witness for C6: {0,1,3} labeled out of 5 resumes at cursor 2; all five
labeled resumes at cursor 4, not 5. -/
theorem resume_rule_witness :
    (loadExistingHandler 5 (RawUpload.object entriesPartial) initState).1.current_index = 2 ∧
    (loadExistingHandler 5 (RawUpload.object entriesFull) initState).1.current_index = 4 := by
  have h1 := resume_rule 5 mPartial initState entriesPartial (by decide)
  have h2 := resume_rule 5 mFull initState entriesFull (by decide)
  constructor
  · rw [h1.1, h1.2.1 2 (by decide) (by decide) (by decide)]
    decide
  · rw [h2.1, h2.2.2.1 (by decide)]
    decide

/-! Claim C8. -/

/-- C8 (amended): the in-range invariant on store keys is preserved by the
session's own transitions — classify writes only at the cursor, which the
annotation screen keeps inside `0..n-1`, and navigation never touches the
store — but the load handler performs no range check on the parsed keys, so
a loaded label file can put the session in a state that violates the
invariant. -/
theorem classify_preserves_position_invariant (n : Nat) (env : RowEnv)
    (c : Classification) (ok : Bool) (s : SessionState)
    (hinv : storeInRange n s.results) (h0 : 0 ≤ s.current_index) :
    storeInRange n (classify n env c ok s).state.results ∧
    (nextBtn n s).results = s.results ∧
    (prevBtn n s).results = s.results := by
  refine ⟨?_, ?_, ?_⟩
  · by_cases hn : (n : Int) ≤ s.current_index
    · rw [classify_eval_complete n env c ok s hn]
      exact hinv
    · have hn' := not_le.mp hn
      have key : ∀ rec : LabelRecord,
          storeInRange n (upsert s.results s.current_index rec) := by
        intro rec e he
        rcases mem_upsert s.results s.current_index rec e he with he' | he'
        · subst he'
          exact ⟨h0, hn'⟩
        · exact hinv e he'
      simp only [classify]
      rw [if_neg hn]
      split_ifs with h1 h2 h3
      · exact hinv
      · exact key _
      · exact key _
      · exact key _
  · simp only [nextBtn]
    split_ifs <;> rfl
  · simp only [prevBtn]
    split_ifs <;> rfl

/-- Witness for the amended C8: an in-range edit keeps the store keys in
range. -/
theorem classify_preserves_position_invariant_witness :
    storeInRange 4 (classify 4 envA Classification.skipped true sEdit).state.results := by
  have h := classify_preserves_position_invariant 4 envA Classification.skipped
    true sEdit (by decide) (by decide)
  exact h.1

/-- A record persisted at position 7. -/
def recBad : LabelRecord :=
  { url := "b", classification := Classification.no_stream, index := 7,
    timestamp := "t7", metadata := [], edited := false }

/-- A label file whose only key, 7, lies outside a catalog of length 5. -/
def uploadOutOfRange : RawUpload := RawUpload.object [("7", recBad)]

/-- C8 fails on the code as stated: loading a label file keyed at position 7
over a catalog of length 5 succeeds (no range check) and leaves the session
with a store key outside `0 <= p < 5`. -/
theorem load_breaks_position_invariant_cex :
    (loadExistingHandler 5 uploadOutOfRange initState).2 = true ∧
    lookupPos (loadExistingHandler 5 uploadOutOfRange initState).1.results 7 = some recBad ∧
    ¬ storeInRange 5 (loadExistingHandler 5 uploadOutOfRange initState).1.results := by
  decide

/-! Claim C5. -/

theorem runClassifications_nil (n : Nat) (env : RowEnv) (c : Classification)
    (ok : Bool) (s : SessionState) :
    runClassifications n env c ok [] s = (s, 0) := rfl

theorem runClassifications_cons (n : Nat) (env : RowEnv) (c : Classification)
    (ok : Bool) (p : Int) (ps : List Int) (s : SessionState) :
    runClassifications n env c ok (p :: ps) s =
      ((runClassifications n env c ok ps
          (classify n env c ok { s with current_index := p }).state).1,
        (if (classify n env c ok { s with current_index := p }).flushAttempted
          then 1 else 0) +
        (runClassifications n env c ok ps
          (classify n env c ok { s with current_index := p }).state).2) := rfl

/-- Core induction for the auto-save policy: along a run of distinct, fresh,
in-range positions that stays within the threshold, the counter advances by
one per classification; the run flushes exactly once if it reaches the
threshold and not at all if it stays below it. -/
theorem runClassifications_spec (n : Nat) (env : RowEnv) (c : Classification)
    (ok : Bool) :
    ∀ (ps : List Int) (s : SessionState),
      (∀ p ∈ ps, 0 ≤ p ∧ p < (n : Int) ∧ lookupPos s.results p = none) →
      ps.Nodup →
      s.labels_since_save < s.auto_save_interval →
      s.labels_since_save + ps.length ≤ s.auto_save_interval →
      (s.labels_since_save + ps.length = s.auto_save_interval →
          (runClassifications n env c ok ps s).2 = 1 ∧
          (runClassifications n env c ok ps s).1.labels_since_save = 0) ∧
      (s.labels_since_save + ps.length < s.auto_save_interval →
          (runClassifications n env c ok ps s).2 = 0 ∧
          (runClassifications n env c ok ps s).1.labels_since_save =
            s.labels_since_save + ps.length) := by
  intro ps
  induction ps with
  | nil =>
      intro s _ _ hlt _
      constructor
      · intro heq
        simp only [List.length_nil] at heq
        omega
      · intro _
        rw [runClassifications_nil]
        exact ⟨rfl, by simp⟩
  | cons p ps ih =>
      intro s hfresh hnodup hlt hle
      obtain ⟨hpn, hnd⟩ := List.nodup_cons.mp hnodup
      obtain ⟨hp0, hpnn, hpf⟩ := hfresh p (List.mem_cons_self p ps)
      simp only [List.length_cons] at hle
      by_cases htrig : s.auto_save_interval ≤ s.labels_since_save + 1
      · have hps : ps = [] := List.length_eq_zero.mp (by omega)
        subst hps
        have hev := classify_eval_fresh_trigger n env c ok
          { s with current_index := p } hpnn hpf htrig
        constructor
        · intro _
          rw [runClassifications_cons, hev]
          exact ⟨rfl, rfl⟩
        · intro hlt2
          simp only [List.length_cons, List.length_nil] at hlt2
          omega
      · have hev := classify_eval_fresh_pending n env c ok
          { s with current_index := p } hpnn hpf htrig
        have hstate : (classify n env c ok { s with current_index := p }).state =
            { s with current_index := p, results := upsert s.results p ⟨env.url, c, p, env.timestamp, env.metadata, false⟩, labels_since_save := s.labels_since_save + 1 } := by
          rw [hev]
        have hflush : (classify n env c ok { s with current_index := p }).flushAttempted = false := by
          rw [hev]
        have ihs := ih
          { s with current_index := p, results := upsert s.results p ⟨env.url, c, p, env.timestamp, env.metadata, false⟩, labels_since_save := s.labels_since_save + 1 }
          (by
            intro q hq
            obtain ⟨hq0, hqn, hqf⟩ := hfresh q (List.mem_cons_of_mem p hq)
            refine ⟨hq0, hqn, ?_⟩
            show lookupPos (upsert s.results p ⟨env.url, c, p, env.timestamp, env.metadata, false⟩) q = none
            rw [lookupPos_upsert,
              if_neg (show ¬ q = p from fun h => hpn (h ▸ hq))]
            exact hqf)
          hnd
          (by
            show s.labels_since_save + 1 < s.auto_save_interval
            omega)
          (by
            show s.labels_since_save + 1 + ps.length ≤ s.auto_save_interval
            omega)
        obtain ⟨ihEq, ihLt⟩ := ihs
        constructor
        · intro heq
          simp only [List.length_cons] at heq
          have hrec := ihEq (by
            show s.labels_since_save + 1 + ps.length = s.auto_save_interval
            omega)
          rw [runClassifications_cons, hflush, hstate]
          simp only [if_false, Bool.false_eq_true]
          exact ⟨by rw [hrec.1], hrec.2⟩
        · intro hlt2
          simp only [List.length_cons] at hlt2
          have hrec := ihLt (by
            show s.labels_since_save + 1 + ps.length < s.auto_save_interval
            omega)
          rw [runClassifications_cons, hflush, hstate]
          simp only [if_false, Bool.false_eq_true]
          refine ⟨by rw [hrec.1], ?_⟩
          rw [hrec.2]
          show s.labels_since_save + 1 + ps.length = s.labels_since_save + (ps.length + 1)
          omega

/-- C5: from a state with a zero counter, a run of exactly
`auto_save_interval` new classifications over distinct unlabeled in-range
positions flushes exactly once and ends with the counter back at 0, while
any shorter run flushes not at all and ends with the counter equal to the
number of classifications (each one incremented it by 1). -/
theorem auto_save_threshold_policy (n : Nat) (env : RowEnv)
    (c : Classification) (ok : Bool) (ps : List Int) (s : SessionState)
    (hstart : s.labels_since_save = 0) (hT : 1 ≤ s.auto_save_interval)
    (hfresh : ∀ p ∈ ps, 0 ≤ p ∧ p < (n : Int) ∧ lookupPos s.results p = none)
    (hnodup : ps.Nodup) (hlen : ps.length ≤ s.auto_save_interval) :
    (ps.length = s.auto_save_interval →
        (runClassifications n env c ok ps s).2 = 1 ∧
        (runClassifications n env c ok ps s).1.labels_since_save = 0) ∧
    (ps.length < s.auto_save_interval →
        (runClassifications n env c ok ps s).2 = 0 ∧
        (runClassifications n env c ok ps s).1.labels_since_save = ps.length) := by
  have h := runClassifications_spec n env c ok ps s hfresh hnodup
    (by omega) (by omega)
  rw [hstart] at h
  simpa using h

/-- A fresh session over a 3-item catalog with threshold 2. -/
def sThr : SessionState :=
  { current_index := 0, results := [], labels_since_save := 0,
    auto_save_interval := 2, edit_mode := false, is_inverted := false }

/-- Witness for C5 on a 3-item catalog with threshold 2: two new
classifications flush once and reset the counter; a single one leaves one
pending label and no flush. -/
theorem auto_save_threshold_policy_witness :
    ((runClassifications 3 envA Classification.has_stream true [0, 1] sThr).2 = 1 ∧
      (runClassifications 3 envA Classification.has_stream true [0, 1] sThr).1.labels_since_save = 0) ∧
    ((runClassifications 3 envA Classification.has_stream true [2] sThr).2 = 0 ∧
      (runClassifications 3 envA Classification.has_stream true [2] sThr).1.labels_since_save = 1) := by
  have h1 := auto_save_threshold_policy 3 envA Classification.has_stream true
    [0, 1] sThr (by decide) (by decide) (by decide) (by decide) (by decide)
  have h2 := auto_save_threshold_policy 3 envA Classification.has_stream true
    [2] sThr (by decide) (by decide) (by decide) (by decide) (by decide)
  exact ⟨h1.1 (by decide), h2.2 (by decide)⟩

end GalaxyStream
